import Mathlib

/-!
Shallow embedding of the optimization control core of the dual prompt
improver (src/dual_prompt_improver.py and src/enhanced_dual_improver.py).

Modelling conventions:
* JSON values returned by the oracle (the LLM client) are modelled by
  `PyVal`; Python `None` is `PyVal.none`.  JSON floats are not modelled
  (every numeric payload in the claims is an integer).
* Python exceptions are modelled by `Except PyErr`; the error value names
  the exception class that the interpreter would raise.
* The oracle (`get_llm_response`) is modelled as a pair of functions from
  the call site's semantically relevant arguments to an optional result;
  a `Option.none` / `PyVal.none` result models an API failure, which the
  source catches and converts to `None`.
* Python float arithmetic is idealised as exact rational / real
  arithmetic; `statistics.stdev` is the exact sample standard deviation
  (a real square root), and Python's `round` (round half to even) is
  `pyRound`.
-/

/-- A parsed JSON / Python value as far as the control core inspects it. -/
inductive PyVal where
  | none
  | int (n : Int)
  | str (s : String)
  | list (xs : List PyVal)
  | dict (kvs : List (String × PyVal))

/-- Python exception classes raised by the modelled code paths. -/
inductive PyErr where
  | valueError
  | typeError
  | attributeError
  | statisticsError
  | fileNotFoundError
deriving DecidableEq

deriving instance DecidableEq for Except

/-- Python truthiness (`if x:`) for the modelled values. -/
def pyTruthy : PyVal → Bool
  | .none => false
  | .int n => n != 0
  | .str s => s != ""
  | .list xs => !xs.isEmpty
  | .dict kvs => !kvs.isEmpty

/-- Python `d.get(k, default)`: only dicts have `.get`; calling it on any
other value raises `AttributeError`.  Keys are assumed distinct (the JSON
parser keeps the last duplicate; the modelled dicts have no duplicates). -/
def pyGet (v : PyVal) (k : String) (d : PyVal) : Except PyErr PyVal :=
  match v with
  | .dict kvs => .ok ((kvs.lookup k).getD d)
  | _ => .error .attributeError

/-- Decimal digit value of a character, if it is a digit. -/
def digitVal (c : Char) : Option Nat :=
  if 48 ≤ c.toNat ∧ c.toNat ≤ 57 then some (c.toNat - 48) else Option.none

/-- Left-to-right decimal accumulation; `Option.none` as the accumulator
means no digit has been seen yet, so the empty digit string fails. -/
def parseNatAux : Option Nat → List Char → Option Nat
  | acc, [] => acc
  | acc, c :: rest =>
    match digitVal c with
    | Option.none => Option.none
    | some d =>
      match acc with
      | Option.none => parseNatAux (some d) rest
      | some n => parseNatAux (some (10 * n + d)) rest

/-- Decimal integer parsing as Python's `int(str)` accepts it: an optional
sign followed by at least one digit.  (Surrounding whitespace and digit
group underscores are not modelled.) -/
def pyStrToInt (s : String) : Option Int :=
  match s.toList with
  | '-' :: rest => (parseNatAux Option.none rest).map (fun n => -(n : Int))
  | '+' :: rest => (parseNatAux Option.none rest).map (fun n => (n : Int))
  | l => (parseNatAux Option.none l).map (fun n => (n : Int))

/-- Python `int(x)` on the modelled values: identity on ints, decimal
parsing on strings (`ValueError` when unparsable), `TypeError` otherwise. -/
def pyToInt (v : PyVal) : Except PyErr Int :=
  match v with
  | .int n => .ok n
  | .str s =>
    match pyStrToInt s with
    | some n => .ok n
    | Option.none => .error .valueError
  | _ => .error .typeError

/-- Python `v < t` for an int bound `t`: `TypeError` unless `v` is a number. -/
def pyLtInt (v : PyVal) (t : Int) : Except PyErr Bool :=
  match v with
  | .int n => .ok (decide (n < t))
  | _ => .error .typeError

/-- Python `v[:n]` followed by iteration (`list.extend`): a list slices to
its first `n` elements, a string slices to its first `n` characters (each
character becoming a one-character string when iterated), anything else
raises `TypeError`. -/
def pySlice (v : PyVal) (n : Nat) : Except PyErr (List PyVal) :=
  match v with
  | .list xs => .ok (xs.take n)
  | .str s => .ok ((s.toList.take n).map (fun c => PyVal.str c.toString))
  | _ => .error .typeError

/-- Arithmetic use of a fetched value (`x + 10`, `statistics.mean`):
`TypeError` unless it is a number. -/
def pyArithInt (v : PyVal) : Except PyErr Int :=
  match v with
  | .int n => .ok n
  | _ => .error .typeError

/-- Mean of a list of rationals (total; callers guard non-emptiness as the
source does). -/
def mean (l : List ℚ) : ℚ := l.sum / (l.length : ℚ)

/-- A list of integer scores read as rationals. -/
def castQ (l : List Int) : List ℚ := l.map (fun n : ℤ => (n : ℚ))

/-- Extract an all-int list of Python values, if that is what it is. -/
def pyIntList? : List PyVal → Option (List Int)
  | [] => some []
  | .int n :: rest => (pyIntList? rest).map (fun l => n :: l)
  | _ => Option.none

/-- Python `statistics.mean` on a list of fetched score values:
`StatisticsError` on an empty list, `TypeError` on non-numeric entries. -/
def pyMean (l : List PyVal) : Except PyErr ℚ :=
  match l with
  | [] => .error .statisticsError
  | _ =>
    match pyIntList? l with
    | some ns => .ok (mean (castQ ns))
    | Option.none => .error .typeError

/-- Ingestion of the critique score, `int(critique_data.get("score", 0))`
(dual_prompt_improver.py line 345 / enhanced_dual_improver.py line 327).
No range check of any kind is performed. -/
def ingestScore (critiqueData : PyVal) : Except PyErr Int := do
  let sv ← pyGet critiqueData "score" (.int 0)
  pyToInt sv

/-- Truthiness of a text-oracle result (`if not response:`). -/
def strTruthy : Option String → Bool
  | Option.none => false
  | some s => s != ""

/-- Call sites of `get_llm_response` with `expect_json=False`, keyed by the
arguments that determine the request.  The response-generation call inside
cross-validation has the same shape as the main generation call (model
`MODEL_GENERATION`, system prompt, user payload) and shares a constructor. -/
inductive GenCall where
  | generate (systemPrompt : String) (userPayload : PyVal)
  | improveSystem (currentSystemPrompt : String) (critiqueText : PyVal)
  | improveCritique (currentCritiquePrompt : String) (metaEvaluation : PyVal)

/-- Call sites of `get_llm_response` with `expect_json=True`.  The critique
call inside cross-validation's `get_critique` has the same shape as the
main critique call and shares a constructor. -/
inductive JsonCall where
  | critique (critiquePrompt : String) (userPayload : PyVal)
      (systemPrompt : String) (response : String)
  | metaEval (critiquePrompt : String) (userInput : String)
      (systemPrompt : String) (response : String) (critiqueData : PyVal)
  | variations (userInput : String) (count : Nat)

/-- The text-generation oracle.  `genText` returns `Option.none` on an API
failure; `genJson` returns `PyVal.none` on an API failure or a malformed
JSON payload (the source's `get_llm_response` catches every exception and
returns `None`). -/
structure Oracle where
  genText : GenCall → Option String
  genJson : JsonCall → PyVal

/-- The configuration namespace threaded through both controllers.  The
source defaults are target 95, max 15, critique period 3, threshold 85,
patience 3, both toggles on, confidence target 90, 2 validation rounds,
stability window 3, detailed logging on. -/
structure Config where
  targetScore : Int
  maxIterations : Nat
  improveCritiqueEvery : Nat
  critiqueImprovementThreshold : Int
  earlyStoppingPatience : Nat
  enableCritiqueImprovement : Bool
  enableSystemPromptImprovement : Bool
  confidenceThreshold : Int
  validationRounds : Nat
  critiqueStabilityWindow : Nat
  detailedLogging : Bool

/-- How a run ended.  `targetMet`, `maxRounds`, `noProgress` and `failure`
are the spec's terminal states; `confidenceMet` labels the enhanced while
condition's third conjunct becoming false. -/
inductive StopReason where
  | targetMet
  | maxRounds
  | noProgress
  | failure
  | confidenceMet
deriving DecidableEq

/-- Record appended to `critique_improvement_history`
(dual_prompt_improver.py lines 383-389). -/
structure CIRecord where
  iteration : Nat
  metaScore : PyVal
  metaCritique : PyVal
  oldCritiquePrompt : String
  newCritiquePrompt : String

/-- History record appended by the basic controller
(dual_prompt_improver.py lines 415-423).  The dict has no `meta_score`
key; `meta_evaluation` holds the stale local from the last round that ran
the meta block, or `None`. -/
structure BRecord where
  iteration : Nat
  system_prompt : String
  critique_prompt_used : String
  response : String
  score : Int
  critique : PyVal
  meta_evaluation : PyVal

/-- Mutable session state of the basic controller (loop-local variables
and the instance fields it touches).  `metaEvalVar` models the
`meta_evaluation` local of the loop body, which persists across
iterations; `Option.none` means "not yet defined". -/
structure BState where
  currentSystemPrompt : String
  currentCritiquePrompt : String
  currentScore : Int
  bestScore : Int
  iterationsWithoutImprovement : Nat
  history : List BRecord
  critiqueImprovementHistory : List CIRecord
  metaEvalVar : Option PyVal

/-- Outcome of one iteration of the basic loop body: continue, or leave the
loop with a stop reason. -/
inductive BOutcome where
  | cont (st : BState)
  | stop (r : StopReason) (st : BState)

/-- Value recorded for `meta_evaluation` in a history entry
(`meta_evaluation if 'meta_evaluation' in locals() else None`). -/
def metaVarVal : Option PyVal → PyVal
  | some v => v
  | Option.none => .none

/-- Eager evaluation of the `DETAILED_LOGGING` f-string at
dual_prompt_improver.py line 352: `critique_text[:200]` and
`len(critique_text) > 200`.  Both operations succeed on strings (and on
lists); on any other value the slice raises `TypeError`.  The formatted
text goes to the log and is otherwise discarded. -/
def logCritiqueSlice (v : PyVal) : Except PyErr Unit :=
  match v with
  | .str _ => .ok ()
  | .list _ => .ok ()
  | _ => .error .typeError

/-- The basic controller's early-stopping decision (dual_prompt_improver.py
lines 395-400): when the score has reached the target the `elif` guarding
the no-progress break is never evaluated. -/
def basicEarlyStop (cfg : Config) (score : Int) (iwi : Nat) : Bool :=
  if cfg.targetScore ≤ score then false
  else decide (cfg.earlyStoppingPatience ≤ iwi)

/-- The basic controller's critique-prompt evaluation and improvement block
(dual_prompt_improver.py lines 361-393): on evaluation rounds, request a
meta-evaluation; when it is truthy and its meta-score is below the
threshold, request a revised critique prompt, record the change and adopt
it.  Returns the (possibly new) critique prompt, improvement history and
`meta_evaluation` local. -/
def basicMetaStep (O : Oracle) (cfg : Config) (userInput : String)
    (iter : Nat) (st : BState) (response : String) (critiqueData : PyVal) :
    Except PyErr (String × List CIRecord × Option PyVal) :=
  if cfg.enableCritiqueImprovement &&
      (decide (iter % cfg.improveCritiqueEvery = 0) || decide (iter = 1)) then do
    let me := O.genJson
      (.metaEval st.currentCritiquePrompt userInput st.currentSystemPrompt response critiqueData)
    if pyTruthy me then do
      let ms ← pyGet me "meta_score" (.int 0)
      let mc ← pyGet me "meta_critique" (.str "No meta-critique provided")
      let lt ← pyLtInt ms cfg.critiqueImprovementThreshold
      if lt then
        match O.genText (.improveCritique st.currentCritiquePrompt me) with
        | some ip =>
          if ip = "" then
            pure (st.currentCritiquePrompt, st.critiqueImprovementHistory, some me)
          else
            pure (ip,
              st.critiqueImprovementHistory ++
                [⟨iter, ms, mc, st.currentCritiquePrompt, ip⟩],
              some me)
        | Option.none =>
          pure (st.currentCritiquePrompt, st.critiqueImprovementHistory, some me)
      else pure (st.currentCritiquePrompt, st.critiqueImprovementHistory, some me)
    else pure (st.currentCritiquePrompt, st.critiqueImprovementHistory, some me)
  else pure (st.currentCritiquePrompt, st.critiqueImprovementHistory, st.metaEvalVar)

/-- The basic controller's conditional improvement of the system prompt
(dual_prompt_improver.py lines 403-412). -/
def basicImproveStep (O : Oracle) (cfg : Config) (iter : Nat) (score : Int)
    (sp : String) (critiqueText : PyVal) : String :=
  if cfg.enableSystemPromptImprovement && decide (score < cfg.targetScore) &&
      decide (iter < cfg.maxIterations) then
    match O.genText (.improveSystem sp critiqueText) with
    | some nsp => if nsp = "" then sp else nsp
    | Option.none => sp
  else sp

/-- One iteration of the basic controller's while body
(dual_prompt_improver.py lines 321-436, run with `iteration_count = iter`
already incremented).  Persistence of intermediate results (file output)
is not modelled.  Note the two breaks that stop the run (failure and
no-progress) happen before the history append. -/
def basicRound (O : Oracle) (cfg : Config) (userInput : String)
    (iter : Nat) (st : BState) : Except PyErr BOutcome := do
  match O.genText (.generate st.currentSystemPrompt (.str userInput)) with
  | Option.none => return .stop .failure st
  | some response =>
  if response = "" then return .stop .failure st else
  let critiqueData := O.genJson
    (.critique st.currentCritiquePrompt (.str userInput) st.currentSystemPrompt response)
  if pyTruthy critiqueData = false then return .stop .failure st else
  let score ← ingestScore critiqueData
  let critiqueText ← pyGet critiqueData "critique" (.str "No critique provided")
  let _ ← if cfg.detailedLogging then logCritiqueSlice critiqueText
    else pure ()
  let bi : Int × Nat :=
    if st.bestScore < score then (score, 0)
    else (st.bestScore, st.iterationsWithoutImprovement + 1)
  let ccm ← basicMetaStep O cfg userInput iter st response critiqueData
  if basicEarlyStop cfg score bi.2 then
    return .stop .noProgress
      ⟨st.currentSystemPrompt, ccm.1, score, bi.1, bi.2, st.history, ccm.2.1, ccm.2.2⟩
  else
  let sp := basicImproveStep O cfg iter score st.currentSystemPrompt critiqueText
  return .cont
    ⟨sp, ccm.1, score, bi.1, bi.2,
      st.history ++ [⟨iter, sp, ccm.1, response, score, critiqueText, metaVarVal ccm.2.2⟩],
      ccm.2.1, ccm.2.2⟩

/-- The basic controller's while loop (dual_prompt_improver.py line 321),
reindexed on the remaining iteration budget: the caller maintains
`fuel = maxIterations - iter`, so `fuel = 0` is exactly the while
condition's `iteration_count < MAX_ITERATIONS` conjunct being false. -/
def basicLoopF (O : Oracle) (cfg : Config) (userInput : String) :
    Nat → Nat → BState → Except PyErr (Nat × BState × StopReason)
  | fuel, iter, st =>
    if cfg.targetScore ≤ st.currentScore then .ok (iter, st, .targetMet)
    else
      match fuel with
      | 0 => .ok (iter, st, .maxRounds)
      | fuel' + 1 =>
        match basicRound O cfg userInput (iter + 1) st with
        | .error e => .error e
        | .ok (.stop r st') => .ok (iter + 1, st', r)
        | .ok (.cont st') => basicLoopF O cfg userInput fuel' (iter + 1) st'

/-- Public entry point of the basic controller, `run_dual_improvement`
(dual_prompt_improver.py line 305): fresh session state, loop, and the
final-state fields the result dict is assembled from. -/
def runDualImprovement (O : Oracle) (cfg : Config) (userInput : String)
    (initialSystemPrompt : String) (initialCritiquePrompt : String) :
    Except PyErr (Nat × BState × StopReason) :=
  basicLoopF O cfg userInput cfg.maxIterations 0
    ⟨initialSystemPrompt, initialCritiquePrompt, 0, 0, 0, [], [], Option.none⟩

/-- Python's `round` to an integer: round half to even. -/
noncomputable def pyRound (x : ℝ) : ℤ :=
  if Int.fract x < 1/2 then ⌊x⌋
  else if 1/2 < Int.fract x then ⌊x⌋ + 1
  else if Even ⌊x⌋ then ⌊x⌋ else ⌊x⌋ + 1

/-- Sample variance (denominator `n - 1`), as computed by
`statistics.stdev` before the square root. -/
def sampleVar (l : List ℚ) : ℚ :=
  ((l.map (fun x => (x - mean l) ^ 2)).sum) / ((l.length : ℚ) - 1)

/-- Exact value of `statistics.stdev`. -/
noncomputable def sampleStd (l : List ℚ) : ℝ :=
  Real.sqrt ((sampleVar l : ℚ) : ℝ)

/-- What `validate_critique_quality` reads from a history entry: the
values of the `score` and `meta_score` keys when present.  Every dict the
two controllers ever pass has an int `score` and never a `meta_score`
key. -/
structure VEntry where
  score : Option Int
  metaScore : Option Int
deriving DecidableEq

/-- The dict returned by `validate_critique_quality`
(enhanced_dual_improver.py lines 151-184).  The insufficient-history
branch carries no sub-scores, hence the `Option`s.  The free-text `reason`
entry (float formatting only) is not modelled. -/
structure VReport where
  is_valid : Bool
  confidence : Int
  consistency_score : Option Int
  trend_score : Option Int
  meta_stability : Option Int

/-- Python `l[-w:]` (note `l[-0:]` is the whole list). -/
def pyTail (l : List α) (w : Nat) : List α :=
  if w = 0 then l else l.drop (l.length - w)

/-- `recent_scores` (enhanced_dual_improver.py line 154). -/
def trailingScores (window : Nat) (hist : List VEntry) : List Int :=
  (pyTail hist window).map (fun h => h.score.getD 0)

/-- `recent_meta_scores` (enhanced_dual_improver.py line 155). -/
def trailingMeta (window : Nat) (hist : List VEntry) : List Int :=
  (pyTail hist window).map (fun h => h.metaScore.getD 0)

/-- `score_std` (line 158): sample standard deviation, or 0 for fewer than
two scores. -/
noncomputable def scoreStdOf (scores : List Int) : ℝ :=
  if 1 < scores.length then sampleStd (castQ scores) else 0

/-- `consistency_score` before rounding (line 159). -/
noncomputable def consistencyOf (scores : List Int) : ℝ :=
  max 0 (100 - scoreStdOf scores * 2)

/-- `trend_score` (lines 162-166); pure integer arithmetic in the source. -/
def trendOf (scores : List Int) : Int :=
  if 2 ≤ scores.length then
    max 0 (min 100 (50 + (scores.getLast?.getD 0 - scores.headI) * 2))
  else 50

/-- `meta_avg` (line 169). -/
def metaAvgOf (metas : List Int) : ℚ :=
  if metas.isEmpty then 0 else mean (castQ metas)

/-- `meta_stability` (line 170). -/
def metaStabOf (threshold : Int) (metas : List Int) : ℚ :=
  if (threshold : ℚ) ≤ metaAvgOf metas then 100 else metaAvgOf metas

/-- `confidence` (line 173), before rounding. -/
noncomputable def overallConfOf (threshold : Int) (scores metas : List Int) : ℝ :=
  consistencyOf scores * 0.4 + (trendOf scores : ℝ) * 0.4 +
    ((metaStabOf threshold metas : ℚ) : ℝ) * 0.2

/-- `validate_critique_quality(critique_history)` (enhanced_dual_improver.py
lines 145-184).  `window` is the module constant
`CRITIQUE_STABILITY_WINDOW` (3) and `threshold` the configured
`CRITIQUE_IMPROVEMENT_THRESHOLD`.  `is_valid` compares the unrounded
confidence with 70; the reported numbers are rounded (rounding an int,
as for the trend, is the identity). -/
noncomputable def validateV (window : Nat) (threshold : Int)
    (hist : List VEntry) : VReport :=
  if hist.length < 2 then ⟨true, 50, Option.none, Option.none, Option.none⟩
  else
    let s := trailingScores window hist
    let m := trailingMeta window hist
    ⟨if (70 : ℝ) ≤ overallConfOf threshold s m then true else false,
      pyRound (overallConfOf threshold s m),
      some (pyRound (consistencyOf s)),
      some (trendOf s),
      some (pyRound ((metaStabOf threshold m : ℚ) : ℝ))⟩

/-- `calculate_final_confidence` (enhanced_dual_improver.py lines 256-282)
as a function of the history (projected to what it reads) and the rubric
improvement history.  `final_meta_score + 10` raises `TypeError` on a
non-numeric stored meta-score, hence the `Except`. -/
noncomputable def calcFinal (hist : List VEntry) (cih : List CIRecord)
    (cfg : Config) : Except PyErr Int :=
  if hist.isEmpty then .ok 0
  else do
    let finalScore : Int := (hist.getLast?.map (fun h => h.score.getD 0)).getD 0
    let ss : Int :=
      (validateV cfg.critiqueStabilityWindow cfg.critiqueImprovementThreshold hist).confidence
    let ta : ℚ :=
      if cfg.targetScore ≤ finalScore then 100
      else ((finalScore : ℚ) / (cfg.targetScore : ℚ)) * 100
    let fm : Int ←
      match cih.getLast? with
      | some r => pyArithInt r.metaScore
      | Option.none => .ok 0
    let cq : ℚ := min 100 ((fm : ℚ) + 10)
    .ok (pyRound ((ta : ℝ) * 0.4 + (ss : ℝ) * 0.3 + ((cq : ℚ) : ℝ) * 0.3))

/-- Tail of `cross_validate_improvement` (enhanced_dual_improver.py lines
229-238): the confidence computed from the two collected score lists.
List truthiness means non-emptiness. -/
def cvConfidence (oldScores newScores : List PyVal) : Except PyErr ℚ :=
  if !oldScores.isEmpty && !newScores.isEmpty then do
    let oldAvg ← pyMean oldScores
    let newAvg ← pyMean newScores
    pure (min 100 (max 0 (50 + (newAvg - oldAvg) * 2)))
  else pure 50

/-- Construction of `test_inputs` (enhanced_dual_improver.py lines
196-213): the base input plus, when more than one sample is requested and
the variation oracle call returns something truthy, its first
`testCases - 1` elements.  When the variation call fails or returns a
falsy payload, the list stays at just the base input. -/
def buildTestInputs (O : Oracle) (userInput : String) (testCases : Nat) :
    Except PyErr (List PyVal) :=
  if 1 < testCases then
    let vars := O.genJson (.variations userInput testCases)
    if pyTruthy vars then do
      let extra ← pySlice vars (testCases - 1)
      pure (PyVal.str userInput :: extra)
    else pure [PyVal.str userInput]
  else pure [PyVal.str userInput]

/-- One side of the per-input comparison (lines 218-221 / 224-227): test a
prompt on one input; a falsy response appends nothing, otherwise the
critique's score (0 if the critique is falsy) is appended.  `cpE` is the
critique prompt `get_critique` resolves (raising if the initial critique
prompt file is missing). -/
def cvScoreOne (O : Oracle) (cpE : Except PyErr String) (prompt : String)
    (input : PyVal) (acc : List PyVal) : Except PyErr (List PyVal) := do
  match O.genText (.generate prompt input) with
  | Option.none => pure acc
  | some resp =>
    if resp = "" then pure acc
    else do
      let cp ← cpE
      let crit := O.genJson (.critique cp input prompt resp)
      let s ← if pyTruthy crit then pyGet crit "score" (.int 0) else pure (PyVal.int 0)
      pure (acc ++ [s])

/-- The `for test_input in test_inputs[:test_cases]` loop (line 216):
old prompt first, then new prompt, per input. -/
def cvLoop (O : Oracle) (cpE : Except PyErr String) (oldPrompt newPrompt : String) :
    List PyVal → List PyVal → List PyVal → Except PyErr (List PyVal × List PyVal)
  | [], os, ns => pure (os, ns)
  | t :: rest, os, ns => do
    let os' ← cvScoreOne O cpE oldPrompt t os
    let ns' ← cvScoreOne O cpE newPrompt t ns
    cvLoop O cpE oldPrompt newPrompt rest os' ns'

/-- `cross_validate_improvement(old, new, user_input, test_cases)`
(enhanced_dual_improver.py lines 186-238). -/
def crossValidateImprovement (O : Oracle) (cpE : Except PyErr String)
    (oldPrompt newPrompt userInput : String) (testCases : Nat) :
    Except PyErr ℚ := do
  let tis ← buildTestInputs O userInput testCases
  let scores ← cvLoop O cpE oldPrompt newPrompt (tis.take testCases) [] []
  cvConfidence scores.1 scores.2

/-- The critique prompt `get_critique` uses (enhanced_dual_improver.py
lines 242-247): the most recent improved critique prompt, or the content
of the initial critique prompt file (whose read may raise). -/
def cvCritiquePrompt (cih : List CIRecord) (initialFile : Except PyErr String) :
    Except PyErr String :=
  match cih.getLast? with
  | some r => .ok r.newCritiquePrompt
  | Option.none => initialFile

/-- History record appended by the enhanced controller
(enhanced_dual_improver.py lines 379-389).  The dict has no `meta_score`
key; `meta_evaluation` is always `None` (the meta block is stubbed). -/
structure ERecord where
  iteration : Nat
  system_prompt : String
  critique_prompt_used : String
  response : String
  score : Int
  critique : PyVal
  meta_evaluation : PyVal
  critique_validation : VReport
  confidence : Int

/-- What the validator reads from an enhanced history record: the `score`
key is present (an int); there is no `meta_score` key. -/
def eRecToV (r : ERecord) : VEntry := ⟨some r.score, Option.none⟩

/-- Projection of the enhanced history for `validate_critique_quality` and
`calculate_final_confidence`. -/
def histV (h : List ERecord) : List VEntry := h.map eRecToV

/-- Mutable session state of the enhanced controller. -/
structure EState where
  currentSystemPrompt : String
  currentCritiquePrompt : String
  currentScore : Int
  bestScore : Int
  iterationsWithoutImprovement : Nat
  history : List ERecord
  critiqueImprovementHistory : List CIRecord
  scoreTrends : List Int

/-- Outcome of one iteration of the enhanced loop body. -/
inductive EOutcome where
  | cont (st : EState)
  | stop (r : StopReason) (st : EState)

/-- The enhanced controller's system prompt improvement step with
cross-validation (enhanced_dual_improver.py lines 358-376): a proposed
replacement is adopted exactly when its cross-validation confidence is at
least 60. -/
def enhImproveStep (O : Oracle) (cfg : Config) (cpE : Except PyErr String)
    (userInput : String) (iter : Nat) (score : Int) (sp : String)
    (critiqueText : PyVal) : Except PyErr String := do
  if cfg.enableSystemPromptImprovement && decide (score < cfg.targetScore) &&
      decide (iter < cfg.maxIterations) then
    match O.genText (.improveSystem sp critiqueText) with
    | some nsp =>
      if nsp = "" then pure sp
      else do
        let conf ← crossValidateImprovement O cpE sp nsp userInput cfg.validationRounds
        if 60 ≤ conf then pure nsp else pure sp
    | Option.none => pure sp
  else pure sp

/-- The enhanced controller's post-record termination check
(enhanced_dual_improver.py lines 395-400): target plus confidence first,
then the no-progress patience. -/
def enhStopCheck (cfg : Config) (score : Int) (conf : Int) (iwi : Nat) :
    Option StopReason :=
  if cfg.targetScore ≤ score && cfg.confidenceThreshold ≤ conf then
    some .targetMet
  else if cfg.earlyStoppingPatience ≤ iwi then some .noProgress
  else Option.none

/-- One iteration of the enhanced controller's while body
(enhanced_dual_improver.py lines 300-400).  The meta-evaluation block
(lines 346-356) only logs: `meta_evaluation` is set to `None` and never
reassigned, and `critique_improvement_history` is never appended to. -/
noncomputable def enhRound (O : Oracle) (cfg : Config)
    (initialFile : Except PyErr String) (userInput : String) (iter : Nat)
    (st : EState) : Except PyErr EOutcome := do
  match O.genText (.generate st.currentSystemPrompt (.str userInput)) with
  | Option.none => return .stop .failure st
  | some response =>
  if response = "" then return .stop .failure st else
  let critiqueData := O.genJson
    (.critique st.currentCritiquePrompt (.str userInput) st.currentSystemPrompt response)
  if pyTruthy critiqueData = false then return .stop .failure st else
  let score ← ingestScore critiqueData
  let critiqueText ← pyGet critiqueData "critique" (.str "No critique provided")
  let cval := validateV cfg.critiqueStabilityWindow cfg.critiqueImprovementThreshold
    (histV st.history ++ [⟨some score, Option.none⟩])
  let trends := st.scoreTrends ++ [score]
  let bi : Int × Nat :=
    if st.bestScore < score then (score, 0)
    else (st.bestScore, st.iterationsWithoutImprovement + 1)
  let sp ← enhImproveStep O cfg (cvCritiquePrompt st.critiqueImprovementHistory initialFile)
    userInput iter score st.currentSystemPrompt critiqueText
  let conf0 ← calcFinal (histV st.history) st.critiqueImprovementHistory cfg
  let hist' := st.history ++
    [⟨iter, sp, st.currentCritiquePrompt, response, score, critiqueText, .none, cval, conf0⟩]
  let st' : EState :=
    ⟨sp, st.currentCritiquePrompt, score, bi.1, bi.2, hist',
      st.critiqueImprovementHistory, trends⟩
  let conf1 ← calcFinal (histV hist') st.critiqueImprovementHistory cfg
  match enhStopCheck cfg score conf1 bi.2 with
  | some r => return .stop r st'
  | Option.none => return .cont st'

/-- The enhanced controller's while loop (enhanced_dual_improver.py line
300), reindexed on the remaining iteration budget exactly as
`basicLoopF`.  The three while conjuncts are evaluated left to right with
Python short-circuiting, so the confidence (and any error its computation
would raise) is only reached when the first two hold. -/
noncomputable def enhLoopF (O : Oracle) (cfg : Config)
    (initialFile : Except PyErr String) (userInput : String) :
    Nat → Nat → EState → Except PyErr (Nat × EState × StopReason)
  | fuel, iter, st =>
    if cfg.targetScore ≤ st.currentScore then .ok (iter, st, .targetMet)
    else
      match fuel with
      | 0 => .ok (iter, st, .maxRounds)
      | fuel' + 1 =>
        match calcFinal (histV st.history) st.critiqueImprovementHistory cfg with
        | .error e => .error e
        | .ok conf =>
          if cfg.confidenceThreshold ≤ conf then .ok (iter, st, .confidenceMet)
          else
            match enhRound O cfg initialFile userInput (iter + 1) st with
            | .error e => .error e
            | .ok (.stop r st') => .ok (iter + 1, st', r)
            | .ok (.cont st') => enhLoopF O cfg initialFile userInput fuel' (iter + 1) st'

/-- Public entry point of the enhanced controller,
`enhanced_run_dual_improvement` (enhanced_dual_improver.py line 284). -/
noncomputable def enhancedRunDualImprovement (O : Oracle) (cfg : Config)
    (initialFile : Except PyErr String) (userInput : String)
    (initialSystemPrompt : String) (initialCritiquePrompt : String) :
    Except PyErr (Nat × EState × StopReason) :=
  enhLoopF O cfg initialFile userInput cfg.maxIterations 0
    ⟨initialSystemPrompt, initialCritiquePrompt, 0, 0, 0, [], [], []⟩

/-- Modelled from the spec: `clamp(x, lo, hi)`. -/
def specClamp (x lo hi : ℚ) : ℚ := max lo (min hi x)

/-- Modelled from the spec: consistency score `max(0, 100 - 2*sigma)` with
`sigma` the sample standard deviation of the trailing scores. -/
noncomputable def specConsistency (scores : List ℚ) : ℝ :=
  max 0 (100 - 2 * sampleStd scores)

/-- Modelled from the spec: trend score `clamp(50 + 2*(last - first), 0,
100)` over the trailing window's scores. -/
def specTrend (scores : List ℚ) : ℚ :=
  specClamp (50 + 2 * (scores.getLast?.getD 0 - scores.headI)) 0 100

/-- Modelled from the spec: overall validation confidence
`0.4*consistency + 0.4*trend + 0.2*meta-stability`. -/
noncomputable def specOverall (c t m : ℝ) : ℝ := 0.4 * c + 0.4 * t + 0.2 * m

/-- Modelled from the spec: cross-validation confidence
`clamp(50 + 2*improvement, 0, 100)` with
`improvement = mean(newScores) - mean(oldScores)`. -/
def specCVConfidence (oldScores newScores : List ℚ) : ℚ :=
  specClamp (50 + 2 * (mean newScores - mean oldScores)) 0 100

/-- The aggregate confidence exactly as claim C3 states it: rubric quality
is `min(100, lastMetaScore + 10)` only when a rubric improvement occurred,
and 0 otherwise. -/
noncomputable def specAggregateClaim (hist : List VEntry) (cih : List CIRecord)
    (cfg : Config) : Int :=
  let finalScore : Int := (hist.getLast?.map (fun h => h.score.getD 0)).getD 0
  let ta : ℚ :=
    if cfg.targetScore ≤ finalScore then 100
    else 100 * (finalScore : ℚ) / (cfg.targetScore : ℚ)
  let ss : Int :=
    (validateV cfg.critiqueStabilityWindow cfg.critiqueImprovementThreshold hist).confidence
  let rq : ℚ :=
    if cih.isEmpty then 0
    else min 100 (((cih.getLast?.map (fun r =>
      match r.metaScore with | .int n => n | _ => 0)).getD 0 : ℚ) + 10)
  pyRound (0.4 * (ta : ℝ) + 0.3 * (ss : ℝ) + 0.3 * ((rq : ℚ) : ℝ))

/-- A rubric-improvement record with an integer meta-score (what the basic
controller actually stores when the oracle's meta dict is well-typed). -/
def mkCIRecord (m : Int) : CIRecord := ⟨0, .int m, .none, "", ""⟩

/-- Scores of the history in a finished basic run. -/
def histScoresB (e : Except PyErr (Nat × BState × StopReason)) : List Int :=
  match e with
  | .ok r => r.2.1.history.map (fun h => h.score)
  | .error _ => []

/-- Recorded (system prompt, response) pairs of a finished basic run. -/
def histSPRespB (e : Except PyErr (Nat × BState × StopReason)) :
    List (String × String) :=
  match e with
  | .ok r => r.2.1.history.map (fun h => (h.system_prompt, h.response))
  | .error _ => []

/-- Stop reason of a finished basic run. -/
def runReasonB (e : Except PyErr (Nat × BState × StopReason)) : Option StopReason :=
  match e with
  | .ok r => some r.2.2
  | .error _ => Option.none

/-- The escaped exception of a basic run, if any. -/
def runErrB (e : Except PyErr (Nat × BState × StopReason)) : Option PyErr :=
  match e with
  | .ok _ => Option.none
  | .error err => some err

/-- Whether a run returned normally. -/
def isOkE (e : Except PyErr α) : Bool :=
  match e with
  | .ok _ => true
  | .error _ => false

/-- The current score after a basic round, when it returned normally. -/
def roundScoreB (e : Except PyErr BOutcome) : Option Int :=
  match e with
  | .ok (.cont st) => some st.currentScore
  | .ok (.stop _ st) => some st.currentScore
  | .error _ => Option.none

/-- Whether a basic round ended the run in the failure state. -/
def roundIsFailure (e : Except PyErr BOutcome) : Bool :=
  match e with
  | .ok (.stop .failure _) => true
  | _ => false

/-- System prompt stored in the record a basic round appended (`none` when
the round appended nothing: an error, or any stop, since the basic loop
breaks before the append on both failure and no-progress). -/
def lastRecSPB (e : Except PyErr BOutcome) : Option String :=
  match e with
  | .ok (.cont st) => st.history.getLast?.map (fun r => r.system_prompt)
  | _ => Option.none

/-- The live system prompt after a basic round that appended a record. -/
def contSPB (e : Except PyErr BOutcome) : Option String :=
  match e with
  | .ok (.cont st) => some st.currentSystemPrompt
  | _ => Option.none

/-- Critique prompt stored in the record a basic round appended. -/
def lastRecCPB (e : Except PyErr BOutcome) : Option String :=
  match e with
  | .ok (.cont st) => st.history.getLast?.map (fun r => r.critique_prompt_used)
  | _ => Option.none

/-- The live critique prompt after a basic round that appended a record. -/
def contCPB (e : Except PyErr BOutcome) : Option String :=
  match e with
  | .ok (.cont st) => some st.currentCritiquePrompt
  | _ => Option.none

/-- System prompt stored in the record an enhanced round appended (every
normal outcome except a failure stop appends; the enhanced loop's breaks
happen after the append). -/
def appendedSPE (e : Except PyErr EOutcome) : Option String :=
  match e with
  | .ok (.cont st) => st.history.getLast?.map (fun r => r.system_prompt)
  | .ok (.stop r st) =>
    if r = .failure then Option.none
    else st.history.getLast?.map (fun r => r.system_prompt)
  | .error _ => Option.none

/-- The live system prompt after an enhanced round that appended a record. -/
def currentSPE (e : Except PyErr EOutcome) : Option String :=
  match e with
  | .ok (.cont st) => some st.currentSystemPrompt
  | .ok (.stop r st) =>
    if r = .failure then Option.none else some st.currentSystemPrompt
  | .error _ => Option.none

/-- Critique prompt stored in the record an enhanced round appended. -/
def appendedCPE (e : Except PyErr EOutcome) : Option String :=
  match e with
  | .ok (.cont st) => st.history.getLast?.map (fun r => r.critique_prompt_used)
  | .ok (.stop r st) =>
    if r = .failure then Option.none
    else st.history.getLast?.map (fun r => r.critique_prompt_used)
  | .error _ => Option.none

/-- The live critique prompt after an enhanced round that appended a
record. -/
def currentCPE (e : Except PyErr EOutcome) : Option String :=
  match e with
  | .ok (.cont st) => some st.currentCritiquePrompt
  | .ok (.stop r st) =>
    if r = .failure then Option.none else some st.currentCritiquePrompt
  | .error _ => Option.none

/-- Number of test inputs the cross-validator actually iterates over
(`test_inputs[:test_cases]`). -/
def tiCount (O : Oracle) (userInput : String) (testCases : Nat) : Option Nat :=
  match buildTestInputs O userInput testCases with
  | .ok l => some (l.take testCases).length
  | .error _ => Option.none

theorem pyRound_intCast (n : ℤ) : pyRound (n : ℝ) = n := by
  unfold pyRound
  rw [Int.fract_intCast, Int.floor_intCast]
  norm_num

theorem pyRound_le_intCast {x : ℝ} {n : ℤ} (h : x ≤ (n : ℝ)) : pyRound x ≤ n := by
  have hf : ⌊x⌋ ≤ n := by
    have h2 := Int.floor_le_floor h
    rwa [Int.floor_intCast] at h2
  have hlt : 0 < Int.fract x → ⌊x⌋ < n := by
    intro hpos
    rcases lt_or_eq_of_le hf with h' | h'
    · exact h'
    · exfalso
      have : Int.fract x = x - ⌊x⌋ := (Int.self_sub_floor x).symm
      rw [this, h'] at hpos
      linarith
  unfold pyRound
  split_ifs with h1 h2 h3
  · exact hf
  · have := hlt (by linarith)
    omega
  · exact hf
  · have h4 : Int.fract x = 1 / 2 := le_antisymm (not_lt.mp h2) (not_lt.mp h1)
    have := hlt (by rw [h4]; norm_num)
    omega

theorem sum_lt_length_mul {l : List ℚ} {c : ℚ} (hne : l ≠ [])
    (h : ∀ x ∈ l, x < c) : l.sum < (l.length : ℚ) * c := by
  induction l with
  | nil => exact absurd rfl hne
  | cons a t ih =>
    rcases eq_or_ne t [] with rfl | hne'
    · simpa using h a (by simp)
    · have ht := ih hne' (fun x hx => h x (by simp [hx]))
      have ha := h a (by simp)
      simp only [List.sum_cons, List.length_cons]
      push_cast
      linarith

theorem length_mul_le_sum {l : List ℚ} {c : ℚ} (h : ∀ x ∈ l, c ≤ x) :
    (l.length : ℚ) * c ≤ l.sum := by
  induction l with
  | nil => simp
  | cons a t ih =>
    have ht := ih (fun x hx => h x (by simp [hx]))
    have ha := h a (by simp)
    simp only [List.sum_cons, List.length_cons]
    push_cast
    linarith

theorem exists_list_min {l : List ℚ} (hne : l ≠ []) :
    ∃ y ∈ l, ∀ z ∈ l, y ≤ z := by
  induction l with
  | nil => exact absurd rfl hne
  | cons a t ih =>
    rcases eq_or_ne t [] with rfl | hne'
    · exact ⟨a, by simp, by simp⟩
    · obtain ⟨y, hy, hmin⟩ := ih hne'
      by_cases hay : a ≤ y
      · refine ⟨a, by simp, ?_⟩
        intro z hz
        rcases List.mem_cons.mp hz with rfl | hz'
        · exact le_refl z
        · exact le_trans hay (hmin z hz')
      · refine ⟨y, by simp [hy], ?_⟩
        intro z hz
        rcases List.mem_cons.mp hz with rfl | hz'
        · exact le_of_not_le hay
        · exact hmin z hz'

theorem mean_lt_of_forall_lt {l : List ℚ} {c : ℚ} (hne : l ≠ [])
    (h : ∀ x ∈ l, x < c) : mean l < c := by
  have hlen : 0 < (l.length : ℚ) := by
    have : 0 < l.length := List.length_pos.mpr hne
    exact_mod_cast this
  have := sum_lt_length_mul hne h
  rw [mean, div_lt_iff hlen]
  linarith [this]

theorem le_mean_of_forall_le {l : List ℚ} {c : ℚ} (hne : l ≠ [])
    (h : ∀ x ∈ l, c ≤ x) : c ≤ mean l := by
  have hlen : 0 < (l.length : ℚ) := by
    have : 0 < l.length := List.length_pos.mpr hne
    exact_mod_cast this
  have := length_mul_le_sum h
  rw [mean, le_div_iff hlen]
  linarith [this]

theorem pyIntList?_map_int (l : List Int) :
    pyIntList? (l.map PyVal.int) = some l := by
  induction l with
  | nil => rfl
  | cons a t ih => simp [pyIntList?, ih]

theorem mean_eq_zero_of_forall_zero {l : List ℚ} (h : ∀ x ∈ l, x = 0) :
    mean l = 0 := by
  rw [mean, List.sum_eq_zero h]
  simp

theorem castQ_getLast?_getD (l : List Int) :
    (castQ l).getLast?.getD 0 = ((l.getLast?.getD 0 : Int) : ℚ) := by
  induction l with
  | nil => simp [castQ]
  | cons a t ih =>
    cases t with
    | nil => simp [castQ]
    | cons b u =>
      simp only [castQ, List.map_cons, List.getLast?_cons_cons] at ih ⊢
      exact ih

theorem castQ_headI (l : List Int) :
    (castQ l).headI = ((l.headI : Int) : ℚ) := by
  cases l with
  | nil => rfl
  | cons a t => simp [castQ]

theorem castQ_ne_nil {l : List Int} (h : l ≠ []) : castQ l ≠ [] := by
  cases l with
  | nil => exact absurd rfl h
  | cons a t => simp [castQ]

theorem mem_castQ {x : ℚ} {l : List Int} :
    x ∈ castQ l ↔ ∃ n, n ∈ l ∧ (n : ℚ) = x := by
  simp [castQ]

theorem pyMean_map_int {l : List Int} (h : l ≠ []) :
    pyMean (l.map PyVal.int) = .ok (mean (castQ l)) := by
  cases l with
  | nil => exact absurd rfl h
  | cons a t =>
    have hil : pyIntList? (PyVal.int a :: t.map PyVal.int) = some (a :: t) := by
      simpa using pyIntList?_map_int (a :: t)
    simp [pyMean, hil]

theorem cvConfidence_map_int (a b : List Int) (ha : a ≠ []) (hb : b ≠ []) :
    cvConfidence (a.map PyVal.int) (b.map PyVal.int) =
      .ok (min 100 (max 0 (50 +
        (mean (castQ b) - mean (castQ a)) * 2))) := by
  have ha' : (a.map PyVal.int).isEmpty = false := by
    cases a with
    | nil => exact absurd rfl ha
    | cons x t => rfl
  have hb' : (b.map PyVal.int).isEmpty = false := by
    cases b with
    | nil => exact absurd rfl hb
    | cons x t => rfl
  unfold cvConfidence
  rw [ha', hb']
  simp [pyMean_map_int ha, pyMean_map_int hb, Bind.bind, Except.bind, Pure.pure, Except.pure]

/-- C5: `crossValidate` with two non-empty score sets returns
`clamp(50 + 2*(mean(newScores) - mean(oldScores)), 0, 100)`, and returns
the neutral 50 whenever either score set is empty.  Stated for integer
score lists (the values the source collects when critiques are
well-typed); the ite carries the emptiness split, so the claim's two cases
are both covered. -/
theorem c5_cross_validation_formula (a b : List Int) :
    cvConfidence (a.map PyVal.int) (b.map PyVal.int) =
      .ok (if a.isEmpty || b.isEmpty then 50
        else specCVConfidence (castQ a) (castQ b)) := by
  rcases eq_or_ne a [] with rfl | ha
  · simp [cvConfidence, Pure.pure, Except.pure]
  rcases eq_or_ne b [] with rfl | hb
  · have hne : (a.map PyVal.int).isEmpty = false := by
      cases a with
      | nil => exact absurd rfl ha
      | cons x t => rfl
    simp [cvConfidence, hne, Pure.pure, Except.pure]
  have hae : a.isEmpty = false := by
    cases a with
    | nil => exact absurd rfl ha
    | cons x t => rfl
  have hbe : b.isEmpty = false := by
    cases b with
    | nil => exact absurd rfl hb
    | cons x t => rfl
  rw [cvConfidence_map_int a b ha hb, hae, hbe]
  simp only [Bool.false_or, Bool.or_self, if_false]
  congr 1
  rw [specCVConfidence, specClamp, min_max_distrib_left]
  norm_num
  ring_nf

/-- Oracle whose variation-generation call fails (and everything else
too); used for claim C8. -/
def oracleC8 : Oracle := ⟨fun _ => Option.none, fun _ => .none⟩

/-- C8 counterexample: with a requested sample count of 2 and a failed
variation generation, the cross-validator iterates over exactly one test
input, not the requested two — the fallback does not pad the remaining
slots with the original input. -/
theorem c8_counterexample :
    tiCount oracleC8 "base" 2 = some 1 ∧ (1 : Nat) ≠ 2 := by
  constructor
  · rfl
  · decide

/-- C8 amended: when variation generation fails (a falsy payload), the
cross-validator proceeds with only the original input; the number of test
inputs compared shrinks to 1 instead of staying at the requested
`sampleCount`. -/
theorem c8_variation_fallback (O : Oracle) (userInput : String) (n : Nat)
    (hn : 1 < n)
    (hfail : pyTruthy (O.genJson (.variations userInput n)) = false) :
    buildTestInputs O userInput n = .ok [PyVal.str userInput] ∧
      (List.take n [PyVal.str userInput]).length = 1 := by
  constructor
  · unfold buildTestInputs
    rw [if_pos hn]
    simp [hfail, Pure.pure, Except.pure]
  · cases n with
    | zero => omega
    | succ m => simp

theorem c8_variation_fallback_witness :
    buildTestInputs oracleC8 "base" 2 = .ok [PyVal.str "base"] ∧
      (List.take 2 [PyVal.str "base"]).length = 1 :=
  c8_variation_fallback oracleC8 "base" 2 (by decide) (by rfl)

/-- Trivial oracle for instantiating loop-level statements. -/
def oracleIdle : Oracle := ⟨fun _ => Option.none, fun _ => .none⟩

/-- Source-default configuration (target 95, 15 rounds, critique period 3,
threshold 85, patience 3, both toggles on, confidence target 90, 2
validation rounds, stability window 3). -/
def cfgDefault : Config := ⟨95, 15, 3, 85, 3, true, true, 90, 2, 3, true⟩

/-- A session state whose current score has already reached the default
target. -/
def stTargetMet : BState := ⟨"s", "c", 96, 96, 5, [], [], Option.none⟩

/-- C7: when the target-achievement condition holds (score at target; in
the enhanced variant also confidence at its target) at the same time as
the no-progress condition (patience exhausted), the run reports
`targetMet`, never `noProgress`: the basic loop exits with `targetMet`
without consulting the patience counter (`basicEarlyStop` is false
whenever the score is at target), and the enhanced post-round check
returns `targetMet`. -/
theorem c7_termination_precedence (O : Oracle) (cfg : Config) (u : String)
    (fuel iter : Nat) (st : BState) (score conf : Int) (iwi : Nat)
    (hs : cfg.targetScore ≤ st.currentScore)
    (hs2 : cfg.targetScore ≤ score)
    (hc : cfg.confidenceThreshold ≤ conf)
    (hp : cfg.earlyStoppingPatience ≤ iwi) :
    basicLoopF O cfg u fuel iter st = .ok (iter, st, .targetMet) ∧
    basicEarlyStop cfg score iwi = false ∧
    enhStopCheck cfg score conf iwi = some .targetMet := by
  refine ⟨?_, ?_, ?_⟩
  · unfold basicLoopF
    rw [if_pos hs]
  · unfold basicEarlyStop
    rw [if_pos hs2]
  · unfold enhStopCheck
    have h1 : (cfg.targetScore ≤ score && cfg.confidenceThreshold ≤ conf) = true := by
      simp [hs2, hc]
    rw [h1]
    rfl

theorem c7_termination_precedence_witness :
    basicLoopF oracleIdle cfgDefault "u" 14 0 stTargetMet = .ok (0, stTargetMet, .targetMet) ∧
    basicEarlyStop cfgDefault 96 5 = false ∧
    enhStopCheck cfgDefault 96 95 5 = some .targetMet :=
  c7_termination_precedence oracleIdle cfgDefault "u" 14 0 stTargetMet 96 95 5
    (by decide) (by decide) (by decide) (by decide)

/-- C4: in the enhanced controller a proposed replacement artifact is
adopted exactly when its cross-validation confidence is at least 60; a
new artifact whose sampled scores are uniformly lower than the old one's
gets confidence below 60; and when all sampled comparisons fail the
confidence is the neutral 50, which also fails the bar — in both cases
the step returns the unchanged prior artifact (the `else sp` branch of
the acceptance formula). -/
theorem c4_cross_validated_acceptance (O : Oracle) (cfg : Config)
    (cpE : Except PyErr String) (u : String) (iter : Nat) (score : Int)
    (sp : String) (ct : PyVal) (nsp : String) (conf : ℚ)
    (hen : cfg.enableSystemPromptImprovement = true)
    (hs : score < cfg.targetScore)
    (hi : iter < cfg.maxIterations)
    (hprop : O.genText (.improveSystem sp ct) = some nsp)
    (hne : nsp ≠ "")
    (hcv : crossValidateImprovement O cpE sp nsp u cfg.validationRounds = .ok conf) :
    enhImproveStep O cfg cpE u iter score sp ct =
      .ok (if 60 ≤ conf then nsp else sp) ∧
    (∀ (a b : List Int) (q : ℚ), a ≠ [] → b ≠ [] →
      (∀ x ∈ b, ∀ y ∈ a, x < y) →
      cvConfidence (a.map PyVal.int) (b.map PyVal.int) = .ok q → q < 60) ∧
    cvConfidence [] [] = .ok 50 ∧ ¬ (60 ≤ (50 : ℚ)) := by
  refine ⟨?_, ?_, ?_, by norm_num⟩
  · unfold enhImproveStep
    have hcond : (cfg.enableSystemPromptImprovement && decide (score < cfg.targetScore) &&
        decide (iter < cfg.maxIterations)) = true := by
      simp [hen, hs, hi]
    rw [hcond]
    simp only [if_true, hprop]
    rw [if_neg hne]
    simp only [Bind.bind, Except.bind, hcv]
    split
    · rfl
    · rfl
  · intro a b q ha hb hlow hq
    rw [cvConfidence_map_int a b ha hb] at hq
    have hq' : q = min 100 (max 0 (50 +
        (mean (castQ b) - mean (castQ a)) * 2)) := by
      cases hq
      rfl
    have hane : castQ a ≠ [] := castQ_ne_nil ha
    have hbne : castQ b ≠ [] := castQ_ne_nil hb
    obtain ⟨y0, hy0a, hy0min⟩ := exists_list_min hane
    obtain ⟨ya, hya, rfl⟩ := mem_castQ.mp hy0a
    have hmb : mean (castQ b) < (ya : ℚ) := by
      refine mean_lt_of_forall_lt hbne ?_
      intro x hx
      obtain ⟨xb, hxb, rfl⟩ := mem_castQ.mp hx
      exact_mod_cast hlow xb hxb ya hya
    have hma : (ya : ℚ) ≤ mean (castQ a) :=
      le_mean_of_forall_le hane hy0min
    have hz : 50 + (mean (castQ b) - mean (castQ a)) * 2 < 50 := by
      nlinarith
    have hmax : max 0 (50 + (mean (castQ b) - mean (castQ a)) * 2) < 60 :=
      max_lt (by norm_num) (by linarith)
    rw [hq']
    exact lt_of_le_of_lt (min_le_right _ _) hmax
  · rfl

/-- Oracle for the C4 witness: every critique scores 70, variation
generation fails, and a replacement artifact "NEW" is proposed. -/
def oracleC4 : Oracle :=
  ⟨fun c => match c with
    | .generate _ _ => some "resp"
    | .improveSystem _ _ => some "NEW"
    | .improveCritique _ _ => Option.none,
   fun c => match c with
    | .critique _ _ _ _ => .dict [("score", .int 70)]
    | _ => .none⟩

theorem c4_cross_validated_acceptance_witness :
    enhImproveStep oracleC4 cfgDefault (.ok "CP") "u" 1 70 "OLD" (.str "ct") =
      .ok (if 60 ≤ (50 : ℚ) then "NEW" else "OLD") ∧
    (∀ (a b : List Int) (q : ℚ), a ≠ [] → b ≠ [] →
      (∀ x ∈ b, ∀ y ∈ a, x < y) →
      cvConfidence (a.map PyVal.int) (b.map PyVal.int) = .ok q → q < 60) ∧
    cvConfidence [] [] = .ok 50 ∧ ¬ (60 ≤ (50 : ℚ)) :=
  c4_cross_validated_acceptance oracleC4 cfgDefault (.ok "CP") "u" 1 70 "OLD"
    (.str "ct") "NEW" 50 rfl (by decide) (by decide) rfl (by decide) (by
      simp [crossValidateImprovement, buildTestInputs, cvLoop, cvScoreOne,
        cvConfidence, oracleC4, cfgDefault, pyTruthy, pySlice, pyGet, pyMean,
        pyIntList?, mean, castQ, Bind.bind, Except.bind, Pure.pure, Except.pure]
      norm_num)

/-- C1 amended: the score is ingested as `int(critique.get('score', 0))`
with no range validation — any integer value, however far outside
[1,100], is stored unchanged and the round does not fail because of it;
a missing score is silently replaced by the default 0.  (Shown with the
rubric-improvement block and the detailed-logging line disabled so the
round's outcome depends only on the score value; only a non-numeric score
string raises.) -/
theorem c1_score_ingestion_unchecked (kvs1 kvs2 : List (String × PyVal))
    (v : Int) (O : Oracle) (cfg : Config) (u : String) (iter : Nat)
    (st : BState) (resp : String)
    (h1 : kvs1.lookup "score" = some (.int v))
    (h2 : kvs2.lookup "score" = Option.none)
    (hCI : cfg.enableCritiqueImprovement = false)
    (hDL : cfg.detailedLogging = false)
    (hresp : O.genText (.generate st.currentSystemPrompt (.str u)) = some resp)
    (hre : resp ≠ "")
    (hcrit : O.genJson (.critique st.currentCritiquePrompt (.str u)
      st.currentSystemPrompt resp) = .dict kvs1)
    (hkne : kvs1 ≠ []) :
    ingestScore (.dict kvs1) = .ok v ∧
    ingestScore (.dict kvs2) = .ok 0 ∧
    roundScoreB (basicRound O cfg u iter st) = some v ∧
    roundIsFailure (basicRound O cfg u iter st) = false := by
  have hi1 : ingestScore (.dict kvs1) = .ok v := by
    simp [ingestScore, pyGet, h1, pyToInt, Bind.bind, Except.bind]
  have hi2 : ingestScore (.dict kvs2) = .ok 0 := by
    simp [ingestScore, pyGet, h2, pyToInt, Bind.bind, Except.bind]
  have htr : pyTruthy (PyVal.dict kvs1) = true := by
    cases kvs1 with
    | nil => exact absurd rfl hkne
    | cons x t => rfl
  have hms : basicMetaStep O cfg u iter st resp (PyVal.dict kvs1) =
      .ok (st.currentCritiquePrompt, st.critiqueImprovementHistory, st.metaEvalVar) := by
    unfold basicMetaStep
    simp [hCI, Pure.pure, Except.pure]
  have key : roundScoreB (basicRound O cfg u iter st) = some v ∧
      roundIsFailure (basicRound O cfg u iter st) = false := by
    unfold basicRound
    rw [hresp]
    simp only [hcrit, htr, hre, hDL, Bool.true_eq_false, Bool.false_eq_true,
      if_false, ite_false, Bind.bind, Except.bind, Pure.pure, Except.pure,
      hi1, hms, pyGet]
    split <;> split <;> exact ⟨rfl, rfl⟩
  exact ⟨hi1, hi2, key.1, key.2⟩

/-- Oracle whose structured critique is truthy but has no `score` key. -/
def oracleC1 : Oracle :=
  ⟨fun c => match c with
    | .generate _ _ => some "r"
    | _ => Option.none,
   fun c => match c with
    | .critique _ _ _ _ => .dict [("critique", .str "c")]
    | _ => .none⟩

/-- Configuration with both improvement toggles off (all other values the
source defaults). -/
def cfgNoCI : Config := ⟨95, 15, 3, 85, 3, false, false, 90, 2, 3, false⟩

/-- The fresh session state `run_dual_improvement` starts from. -/
def stInit : BState := ⟨"s", "c", 0, 0, 0, [], [], Option.none⟩

/-- C1 counterexample: a structured critique with a missing score is
ingested as the default 0 and the run keeps iterating (two rounds with
stored score 0 before stopping for lack of progress) — it does not stop
in a failure state. -/
theorem c1_counterexample :
    histScoresB (runDualImprovement oracleC1 cfgNoCI "u" "s" "c") = [0, 0] ∧
    runReasonB (runDualImprovement oracleC1 cfgNoCI "u" "s" "c") = some .noProgress := by
  constructor
  · decide
  · decide

/-- Oracle whose structured critique carries the out-of-range score 150. -/
def oracleC1w : Oracle :=
  ⟨fun c => match c with
    | .generate _ _ => some "r"
    | _ => Option.none,
   fun c => match c with
    | .critique _ _ _ _ => .dict [("score", .int 150)]
    | _ => .none⟩

theorem c1_score_ingestion_unchecked_witness :
    ingestScore (.dict [("score", PyVal.int 150)]) = .ok 150 ∧
    ingestScore (.dict [("critique", PyVal.str "x")]) = .ok 0 ∧
    roundScoreB (basicRound oracleC1w cfgNoCI "u" 1 stInit) = some 150 ∧
    roundIsFailure (basicRound oracleC1w cfgNoCI "u" 1 stInit) = false :=
  c1_score_ingestion_unchecked [("score", PyVal.int 150)]
    [("critique", PyVal.str "x")] 150 oracleC1w cfgNoCI "u" 1 stInit "r"
    (by simp [List.lookup]) (by simp [List.lookup]) rfl rfl rfl (by decide) rfl
    (by simp)

/-- Oracle for the C2 counterexample: responses echo the system prompt
they were generated with, and the refinement call proposes "SP2". -/
def oracleC2 : Oracle :=
  ⟨fun c => match c with
    | .generate sp _ => some (String.append "resp-" sp)
    | .improveSystem _ _ => some "SP2"
    | .improveCritique _ _ => Option.none,
   fun c => match c with
    | .critique _ _ _ _ => .dict [("score", .int 10), ("critique", .str "weak")]
    | _ => .none⟩

/-- Configuration with patience 1 and only artifact improvement enabled. -/
def cfgC2 : Config := ⟨95, 15, 3, 85, 1, false, true, 90, 2, 3, true⟩

/-- C2 counterexample: in round 1 the response "resp-SP1" was generated
with the artifact "SP1", the improvement step then replaced the live
artifact by "SP2", and the appended record stores `system_prompt = "SP2"`
— the revised artifact, not the one actually used for generation and
scoring. -/
theorem c2_counterexample :
    histSPRespB (runDualImprovement oracleC2 cfgC2 "u" "SP1" "CP") =
      [("SP2", "resp-SP1")] ∧ "SP2" ≠ "SP1" := by
  constructor
  · decide
  · decide

/-- C2 amended: the `IterationRecord` appended at the end of a round
stores the controller's current artifacts at append time — the artifacts
as already revised by this round's improvement steps — which coincide
with the live artifacts carried into the next round, not necessarily the
artifacts used to generate and score this round's response.  (Rounds that
append no record — failure stops, and the basic variant's no-progress
break — are excluded by the projections, which are `Option.none` there on
both sides.) -/
theorem c2_record_stores_revised_artifacts :
    (∀ (O : Oracle) (cfg : Config) (u : String) (iter : Nat) (st : BState),
      lastRecSPB (basicRound O cfg u iter st) = contSPB (basicRound O cfg u iter st) ∧
      lastRecCPB (basicRound O cfg u iter st) = contCPB (basicRound O cfg u iter st)) ∧
    (∀ (O : Oracle) (cfg : Config) (f : Except PyErr String) (u : String)
        (iter : Nat) (st : EState),
      appendedSPE (enhRound O cfg f u iter st) = currentSPE (enhRound O cfg f u iter st) ∧
      appendedCPE (enhRound O cfg f u iter st) = currentCPE (enhRound O cfg f u iter st)) := by
  constructor
  · intro O cfg u iter st
    unfold basicRound
    simp only [Bind.bind, Except.bind, Pure.pure, Except.pure]
    refine ⟨?_, ?_⟩
    · repeat' split
      all_goals simp_all [lastRecSPB, contSPB, List.getLast?_concat]
    · repeat' split
      all_goals simp_all [lastRecCPB, contCPB, List.getLast?_concat]
  · intro O cfg f u iter st
    unfold enhRound
    simp only [Bind.bind, Except.bind, Pure.pure, Except.pure]
    refine ⟨?_, ?_⟩
    · repeat' split
      all_goals unfold appendedSPE currentSPE
      all_goals try split
      all_goals try subst_eqs
      all_goals simp_all [List.getLast?_concat]
    · repeat' split
      all_goals unfold appendedCPE currentCPE
      all_goals try split
      all_goals try subst_eqs
      all_goals simp_all [List.getLast?_concat]

/-- Oracle whose structured critique carries a non-numeric score string. -/
def oracleC9 : Oracle :=
  ⟨fun c => match c with
    | .generate _ _ => some "r"
    | _ => Option.none,
   fun c => match c with
    | .critique _ _ _ _ => .dict [("score", .str "excellent")]
    | _ => .none⟩

/-- C9 counterexample: a structured critique whose score field is a
non-numeric string makes `int(...)` raise, and the `ValueError`
propagates out of the public entry point instead of resolving to a
terminal state. -/
theorem c9_counterexample :
    runErrB (runDualImprovement oracleC9 cfgDefault "u" "s" "c") =
      some .valueError := by
  decide

/-- A structured oracle payload that cannot make the basic controller
raise: it is falsy (treated as a failed call), or a dict whose `score`
and `meta_score` entries, when present, are ints and whose `critique`
entry, when present, is a string — so neither the `int()` conversion nor
the detailed-logging slice `critique_text[:200]` raises. -/
def GoodJson (v : PyVal) : Prop :=
  pyTruthy v = false ∨
    ∃ kvs, v = .dict kvs ∧
      (∀ w, kvs.lookup "score" = some w → ∃ n, w = .int n) ∧
      (∀ w, kvs.lookup "meta_score" = some w → ∃ n, w = .int n) ∧
      (∀ w, kvs.lookup "critique" = some w → ∃ t, w = .str t)

theorem pyGet_isOk_of_good {v : PyVal} (hg : GoodJson v)
    (ht : pyTruthy v = true) (k : String) (d : PyVal) :
    ∃ w, pyGet v k d = .ok w := by
  rcases hg with hf | ⟨kvs, rfl, _, _, _⟩
  · rw [ht] at hf
    exact absurd hf (by simp)
  · exact ⟨_, rfl⟩

theorem ingestScore_isOk_of_good {v : PyVal} (hg : GoodJson v)
    (ht : pyTruthy v = true) : ∃ n, ingestScore v = .ok n := by
  rcases hg with hf | ⟨kvs, rfl, hs, _, _⟩
  · rw [ht] at hf
    exact absurd hf (by simp)
  · unfold ingestScore
    simp only [Bind.bind, Except.bind, pyGet]
    cases hl : kvs.lookup "score" with
    | none => exact ⟨0, by simp [pyToInt]⟩
    | some w =>
      obtain ⟨n, rfl⟩ := hs w hl
      exact ⟨n, by simp [pyToInt]⟩

theorem basicMetaStep_isOk_of_good (O : Oracle) (cfg : Config) (u : String)
    (iter : Nat) (st : BState) (resp : String) (cd : PyVal)
    (hO : ∀ call, GoodJson (O.genJson call)) :
    ∃ out, basicMetaStep O cfg u iter st resp cd = .ok out := by
  unfold basicMetaStep
  simp only [Bind.bind, Except.bind, Pure.pure, Except.pure]
  split
  · rcases hO (.metaEval st.currentCritiquePrompt u st.currentSystemPrompt resp cd)
      with hf | ⟨kvs, heq, _, hm, _⟩
    · rw [hf]
      simp only [Bool.false_eq_true, if_false]
      exact ⟨_, rfl⟩
    · rw [heq]
      simp only [pyTruthy, pyGet]
      cases hlm : kvs.lookup "meta_score" with
      | none =>
        simp only [hlm, Option.getD, pyLtInt]
        split
        · repeat' split
          all_goals exact ⟨_, rfl⟩
        · exact ⟨_, rfl⟩
      | some w =>
        obtain ⟨n, rfl⟩ := hm w hlm
        simp only [hlm, Option.getD, pyLtInt]
        split
        · repeat' split
          all_goals exact ⟨_, rfl⟩
        · exact ⟨_, rfl⟩
  · exact ⟨_, rfl⟩

theorem logCritiqueSlice_isOk_of_good {v : PyVal} (hg : GoodJson v)
    (ht : pyTruthy v = true) {w : PyVal}
    (hw : pyGet v "critique" (.str "No critique provided") = .ok w) :
    logCritiqueSlice w = .ok () := by
  rcases hg with hf | ⟨kvs, rfl, _, _, hc⟩
  · rw [ht] at hf
    exact absurd hf (by simp)
  · have hw' : (kvs.lookup "critique").getD (.str "No critique provided") = w := by
      simpa [pyGet] using hw
    cases hl : kvs.lookup "critique" with
    | none =>
      rw [hl] at hw'
      simp at hw'
      rw [← hw']
      rfl
    | some x =>
      obtain ⟨t, rfl⟩ := hc x hl
      rw [hl] at hw'
      simp at hw'
      rw [← hw']
      rfl

theorem basicRound_isOk_of_good (O : Oracle) (cfg : Config) (u : String)
    (iter : Nat) (st : BState)
    (hO : ∀ call, GoodJson (O.genJson call)) :
    ∃ out, basicRound O cfg u iter st = .ok out := by
  cases hg : O.genText (.generate st.currentSystemPrompt (.str u)) with
  | none =>
    refine ⟨.stop .failure st, ?_⟩
    unfold basicRound
    rw [hg]
    rfl
  | some resp =>
    by_cases hre : resp = ""
    · refine ⟨.stop .failure st, ?_⟩
      unfold basicRound
      rw [hg]
      simp [hre, Pure.pure, Except.pure]
    · by_cases ht : pyTruthy (O.genJson (.critique st.currentCritiquePrompt
          (.str u) st.currentSystemPrompt resp)) = false
      · refine ⟨.stop .failure st, ?_⟩
        unfold basicRound
        rw [hg]
        simp [hre, ht, Pure.pure, Except.pure]
      · have ht' : pyTruthy (O.genJson (.critique st.currentCritiquePrompt
            (.str u) st.currentSystemPrompt resp)) = true := by
          rwa [Bool.not_eq_false] at ht
        obtain ⟨n, hn⟩ := ingestScore_isOk_of_good (hO _) ht'
        obtain ⟨w, hw⟩ := pyGet_isOk_of_good (hO _) ht' "critique"
          (.str "No critique provided")
        obtain ⟨ccm, hccm⟩ := basicMetaStep_isOk_of_good O cfg u iter st resp
          (O.genJson (.critique st.currentCritiquePrompt (.str u)
            st.currentSystemPrompt resp)) hO
        have hlog : logCritiqueSlice w = (Except.ok () : Except PyErr Unit) :=
          logCritiqueSlice_isOk_of_good (hO _) ht' hw
        unfold basicRound
        rw [hg]
        simp only [hre, ht', Bool.true_eq_false, if_false, ite_false,
          Bind.bind, Except.bind, Pure.pure, Except.pure, hn, hw, hlog, hccm,
          ite_self]
        split <;> split <;> exact ⟨_, rfl⟩

theorem basicLoopF_isOk_of_good (O : Oracle) (cfg : Config) (u : String)
    (hO : ∀ call, GoodJson (O.genJson call)) :
    ∀ fuel iter st, ∃ r, basicLoopF O cfg u fuel iter st = .ok r := by
  intro fuel
  induction fuel with
  | zero =>
    intro iter st
    unfold basicLoopF
    split
    · exact ⟨_, rfl⟩
    · exact ⟨_, rfl⟩
  | succ f ih =>
    intro iter st
    unfold basicLoopF
    split
    · exact ⟨_, rfl⟩
    · obtain ⟨out, hout⟩ := basicRound_isOk_of_good O cfg u (iter + 1) st hO
      rw [hout]
      cases out with
      | stop r st' => exact ⟨_, rfl⟩
      | cont st' => exact ih (iter + 1) st'

/-- C9 amended: exception safety does not hold unconditionally — a
critique whose score field is a non-numeric string raises `ValueError`
out of the public entry point (see the counterexample), and with detailed
logging on, a truthy non-string critique value raises `TypeError` at the
log line — but whenever every structured oracle payload is falsy or a
record with integer score / meta-score fields and a string critique
field, the basic entry point always returns a terminal result rather
than raising. -/
theorem c9_no_exception_when_well_typed (O : Oracle) (cfg : Config)
    (u s c : String) (hO : ∀ call, GoodJson (O.genJson call)) :
    isOkE (runDualImprovement O cfg u s c) = true := by
  obtain ⟨r, hr⟩ := basicLoopF_isOk_of_good O cfg u hO cfg.maxIterations 0
    ⟨s, c, 0, 0, 0, [], [], Option.none⟩
  unfold runDualImprovement
  rw [hr]
  rfl

/-- Oracle all of whose structured calls fail. -/
def oracleC9w : Oracle := ⟨fun _ => Option.none, fun _ => .none⟩

theorem c9_no_exception_when_well_typed_witness :
    isOkE (runDualImprovement oracleC9w cfgDefault "u" "s" "c") = true :=
  c9_no_exception_when_well_typed oracleC9w cfgDefault "u" "s" "c"
    (fun _ => Or.inl rfl)

theorem trailingScores_two_le {window : Nat} {hist : List VEntry}
    (h2 : 2 ≤ hist.length) (hw : 2 ≤ window) :
    2 ≤ (trailingScores window hist).length := by
  unfold trailingScores pyTail
  rw [if_neg (by omega)]
  simp only [List.length_map, List.length_drop]
  omega

theorem consistencyOf_eq_spec {s : List Int} (h : 2 ≤ s.length) :
    consistencyOf s = specConsistency (castQ s) := by
  unfold consistencyOf specConsistency scoreStdOf
  rw [if_pos (by omega)]
  ring_nf

theorem trendOf_eq_spec {s : List Int} (h : 2 ≤ s.length) :
    ((trendOf s : Int) : ℚ) = specTrend (castQ s) := by
  unfold trendOf specTrend specClamp
  rw [if_pos h, castQ_getLast?_getD, castQ_headI]
  push_cast
  ring_nf

theorem overallConfOf_eq_spec {threshold : Int} {s m : List Int}
    (h : 2 ≤ s.length) :
    overallConfOf threshold s m =
      specOverall (specConsistency (castQ s)) ((trendOf s : Int) : ℝ)
        ((metaStabOf threshold m : ℚ) : ℝ) := by
  unfold overallConfOf specOverall
  rw [consistencyOf_eq_spec h]
  ring

/-- C6: with fewer than two records the validator returns the neutral
report (confidence 50, valid); with at least two records (and a window of
at least two) its consistency sub-score is the rounded
`max(0, 100 - 2*sigma)` over the trailing window's scores, its trend
sub-score is `clamp(50 + 2*(last - first), 0, 100)`, its overall
confidence is the rounded `0.4*consistency + 0.4*trend +
0.2*meta-stability`, and validity holds exactly when that (unrounded)
overall confidence is at least 70. -/
theorem c6_validator_formulas (window : Nat) (threshold : Int)
    (histShort hist : List VEntry)
    (hshort : histShort.length < 2)
    (h2 : 2 ≤ hist.length) (hw : 2 ≤ window) :
    validateV window threshold histShort =
      ⟨true, 50, Option.none, Option.none, Option.none⟩ ∧
    (validateV window threshold hist).consistency_score =
      some (pyRound (specConsistency (castQ (trailingScores window hist)))) ∧
    (((validateV window threshold hist).trend_score.getD 0 : Int) : ℚ) =
      specTrend (castQ (trailingScores window hist)) ∧
    (validateV window threshold hist).confidence =
      pyRound (specOverall (specConsistency (castQ (trailingScores window hist)))
        ((trendOf (trailingScores window hist) : Int) : ℝ)
        ((metaStabOf threshold (trailingMeta window hist) : ℚ) : ℝ)) ∧
    ((validateV window threshold hist).is_valid = true ↔
      70 ≤ specOverall (specConsistency (castQ (trailingScores window hist)))
        ((trendOf (trailingScores window hist) : Int) : ℝ)
        ((metaStabOf threshold (trailingMeta window hist) : ℚ) : ℝ)) := by
  have hlen := trailingScores_two_le h2 hw
  have hnl : ¬ hist.length < 2 := by omega
  refine ⟨?_, ?_, ?_, ?_, ?_⟩
  · unfold validateV
    rw [if_pos hshort]
  · unfold validateV
    rw [if_neg hnl]
    simp only [consistencyOf_eq_spec hlen]
  · unfold validateV
    rw [if_neg hnl]
    simp only [Option.getD_some]
    exact trendOf_eq_spec hlen
  · unfold validateV
    rw [if_neg hnl]
    simp only [@overallConfOf_eq_spec threshold (trailingScores window hist)
      (trailingMeta window hist) hlen]
  · unfold validateV
    rw [if_neg hnl]
    simp only []
    rw [@overallConfOf_eq_spec threshold (trailingScores window hist)
      (trailingMeta window hist) hlen]
    split
    · simp_all
    · simp_all

/-- History entry with score 60 and no meta-score key. -/
def vE60 : VEntry := ⟨some 60, Option.none⟩

/-- History entry with score 1 and no meta-score key. -/
def vE1 : VEntry := ⟨some 1, Option.none⟩

theorem c6_validator_formulas_witness :
    validateV 3 85 [vE1] = ⟨true, 50, Option.none, Option.none, Option.none⟩ ∧
    (validateV 3 85 [vE60, vE60, vE60]).consistency_score =
      some (pyRound (specConsistency (castQ (trailingScores 3 [vE60, vE60, vE60])))) ∧
    (((validateV 3 85 [vE60, vE60, vE60]).trend_score.getD 0 : Int) : ℚ) =
      specTrend (castQ (trailingScores 3 [vE60, vE60, vE60])) ∧
    (validateV 3 85 [vE60, vE60, vE60]).confidence =
      pyRound (specOverall (specConsistency (castQ (trailingScores 3 [vE60, vE60, vE60])))
        ((trendOf (trailingScores 3 [vE60, vE60, vE60]) : Int) : ℝ)
        ((metaStabOf 85 (trailingMeta 3 [vE60, vE60, vE60]) : ℚ) : ℝ)) ∧
    ((validateV 3 85 [vE60, vE60, vE60]).is_valid = true ↔
      70 ≤ specOverall (specConsistency (castQ (trailingScores 3 [vE60, vE60, vE60])))
        ((trendOf (trailingScores 3 [vE60, vE60, vE60]) : Int) : ℝ)
        ((metaStabOf 85 (trailingMeta 3 [vE60, vE60, vE60]) : ℚ) : ℝ)) :=
  c6_validator_formulas 3 85 [vE1] [vE60, vE60, vE60] (by decide) (by decide)
    (by decide)

theorem mem_of_mem_pyTail {l : List α} {w : Nat} {x : α}
    (h : x ∈ pyTail l w) : x ∈ l := by
  unfold pyTail at h
  split at h
  · exact h
  · exact List.mem_of_mem_drop h

theorem scoreStdOf_nonneg (s : List Int) : 0 ≤ scoreStdOf s := by
  unfold scoreStdOf
  split
  · exact Real.sqrt_nonneg _
  · exact le_refl 0

theorem consistencyOf_le_100 (s : List Int) : consistencyOf s ≤ 100 := by
  unfold consistencyOf
  have h := scoreStdOf_nonneg s
  apply max_le
  · norm_num
  · nlinarith

theorem trendOf_le_100 (s : List Int) : trendOf s ≤ 100 := by
  unfold trendOf
  split
  · apply max_le
    · norm_num
    · exact min_le_left _ _
  · norm_num

/-- C10: every history record the enhanced controller appends projects to
a validator entry without a `meta_score` key, so on any enhanced history
with at least two records the validator's meta-stability sub-score is 0
(given a positive improvement threshold) and its overall confidence never
exceeds 80 = 0.4*100 + 0.4*100 + 0.2*0. -/
theorem c10_enhanced_confidence_cap (window : Nat) (threshold : Int)
    (h : List ERecord) (hlen : 2 ≤ h.length) (hthr : 0 < threshold) :
    (∀ r : ERecord, (eRecToV r).metaScore = Option.none) ∧
    (validateV window threshold (histV h)).meta_stability = some 0 ∧
    (validateV window threshold (histV h)).confidence ≤ 80 := by
  have hnl : ¬ (histV h).length < 2 := by
    simp only [histV, List.length_map]
    omega
  have hmz : ∀ x ∈ trailingMeta window (histV h), x = 0 := by
    intro x hx
    unfold trailingMeta at hx
    obtain ⟨e, he, rfl⟩ := List.mem_map.mp hx
    have he' : e ∈ histV h := mem_of_mem_pyTail he
    obtain ⟨r, _, rfl⟩ := List.mem_map.mp he'
    rfl
  have havg : metaAvgOf (trailingMeta window (histV h)) = 0 := by
    unfold metaAvgOf
    split
    · rfl
    · apply mean_eq_zero_of_forall_zero
      intro x hx
      obtain ⟨n, hn, rfl⟩ := mem_castQ.mp hx
      rw [hmz n hn]
      norm_num
  have hms : metaStabOf threshold (trailingMeta window (histV h)) = 0 := by
    unfold metaStabOf
    rw [havg, if_neg]
    intro hle
    have : (0 : ℚ) < threshold := by exact_mod_cast hthr
    linarith
  have hconf : overallConfOf threshold (trailingScores window (histV h))
      (trailingMeta window (histV h)) ≤ 80 := by
    unfold overallConfOf
    rw [hms]
    have hc1 := consistencyOf_le_100 (trailingScores window (histV h))
    have ht1 : ((trendOf (trailingScores window (histV h)) : Int) : ℝ) ≤ 100 := by
      exact_mod_cast trendOf_le_100 (trailingScores window (histV h))
    norm_num
    nlinarith
  refine ⟨fun r => rfl, ?_, ?_⟩
  · unfold validateV
    rw [if_neg hnl]
    simp only [hms]
    norm_num
    simpa using pyRound_intCast 0
  · unfold validateV
    rw [if_neg hnl]
    simp only []
    apply pyRound_le_intCast
    push_cast
    exact hconf

/-- Neutral validation report literal. -/
def vrepNeutral : VReport := ⟨true, 50, Option.none, Option.none, Option.none⟩

/-- A concrete enhanced history record (score 50, no meta-score key). -/
def erec50 : ERecord := ⟨1, "s", "c", "r", 50, .none, .none, vrepNeutral, 0⟩

theorem c10_enhanced_confidence_cap_witness :
    (∀ r : ERecord, (eRecToV r).metaScore = Option.none) ∧
    (validateV 3 85 (histV [erec50, erec50])).meta_stability = some 0 ∧
    (validateV 3 85 (histV [erec50, erec50])).confidence ≤ 80 :=
  c10_enhanced_confidence_cap 3 85 [erec50, erec50] (by decide) (by decide)

/-- Modelled from the claim as amended: identical to the claim's formula
except that the rubric-quality component is `min(100, lastMetaScore + 10)`
with `lastMetaScore` defaulting to 0 when no rubric improvement has
occurred — i.e. the component is 10, not 0, in that case. -/
noncomputable def specAggregateAmended (hist : List VEntry) (metas : List Int)
    (cfg : Config) : Int :=
  let finalScore : Int := (hist.getLast?.map (fun e => e.score.getD 0)).getD 0
  let ta : ℚ :=
    if cfg.targetScore ≤ finalScore then 100
    else 100 * (finalScore : ℚ) / (cfg.targetScore : ℚ)
  let ss : Int :=
    (validateV cfg.critiqueStabilityWindow cfg.critiqueImprovementThreshold hist).confidence
  let rq : ℚ := min 100 ((metas.getLast?.getD 0 : ℚ) + 10)
  pyRound (0.4 * (ta : ℝ) + 0.3 * (ss : ℝ) + 0.3 * ((rq : ℚ) : ℝ))

/-- C3 counterexample: on the one-record history with score 95 (target
reached) and no rubric improvements, the aggregator returns 58 — its
rubric-quality component is `min(100, 0 + 10) = 10` — while the claim's
formula (rubric quality 0 with no improvements) gives 55. -/
theorem c3_counterexample :
    calcFinal [⟨some 95, Option.none⟩] [] cfgDefault = .ok 58 ∧
    specAggregateClaim [⟨some 95, Option.none⟩] [] cfgDefault = 55 := by
  have hval : validateV cfgDefault.critiqueStabilityWindow
      cfgDefault.critiqueImprovementThreshold [⟨some 95, Option.none⟩] =
      ⟨true, 50, Option.none, Option.none, Option.none⟩ := by
    unfold validateV
    rw [if_pos (by decide)]
  constructor
  · unfold calcFinal
    rw [if_neg (by decide)]
    simp only [hval, List.getLast?_cons, List.getLast?_nil, Option.getD_some,
      Option.getD_none, Option.map_some, Bind.bind, Except.bind, Pure.pure,
      Except.pure, List.getLast?_singleton]
    norm_num [cfgDefault]
    simpa using pyRound_intCast 58
  · unfold specAggregateClaim
    simp only [hval, List.getLast?_singleton, Option.getD_some, Option.map_some,
      List.isEmpty_nil, if_true, ite_true]
    norm_num [cfgDefault]
    simpa using pyRound_intCast 55

/-- C3 amended: for every non-empty history, the aggregated confidence is
`round(0.4*target-achievement + 0.3*score-stability + 0.3*rubric-quality)`
with rubric-quality `min(100, lastMetaScore + 10)` where `lastMetaScore`
defaults to 0 (component 10, not 0) when no rubric improvement has
occurred.  Stated for integer stored meta-scores, the only values the
controller writes from well-typed oracle output. -/
theorem c3_aggregate_amended (hist : List VEntry) (metas : List Int)
    (cfg : Config) (hne : hist ≠ []) :
    calcFinal hist (metas.map mkCIRecord) cfg =
      .ok (specAggregateAmended hist metas cfg) := by
  have hie : hist.isEmpty = false := by
    cases hist with
    | nil => exact absurd rfl hne
    | cons a t => rfl
  unfold calcFinal specAggregateAmended
  rw [if_neg (by simp [hie])]
  cases hm : metas.getLast? with
  | none =>
    have hmm : (metas.map mkCIRecord).getLast? = Option.none := by
      rw [List.getLast?_map, hm]
      rfl
    simp only [hmm, hm, Option.getD_none, Bind.bind, Except.bind, Pure.pure,
      Except.pure]
    congr 1
    congr 1
    split <;> push_cast <;> ring
  | some m =>
    have hmm : (metas.map mkCIRecord).getLast? = some (mkCIRecord m) := by
      rw [List.getLast?_map, hm]
      rfl
    simp only [hmm, hm, Option.getD_some, mkCIRecord, pyArithInt, Bind.bind,
      Except.bind, Pure.pure, Except.pure]
    congr 1
    congr 1
    split <;> push_cast <;> ring

theorem c3_aggregate_amended_witness :
    calcFinal [⟨some 50, Option.none⟩] (List.map mkCIRecord []) cfgDefault =
      .ok (specAggregateAmended [⟨some 50, Option.none⟩] [] cfgDefault) :=
  c3_aggregate_amended [⟨some 50, Option.none⟩] [] cfgDefault (by simp)
